import Mathlib

/-!
Verification of the Forecast & Allocation Engine of the GGC repository
(`app.py`): a shallow embedding of the forecasting page
(`forecasting_main`, `prophet_forecast`), the size allocation pipeline,
and the tracking entry path (`tracking_main`), together with theorems
settling the specification claims.

Conventions of the embedding:
* Sales quantities, totals and ratios are rationals (`ℚ`); the source
  works with Python/pandas numbers and all the relevant arithmetic
  (means, elementwise division, multiplication) is exact there for the
  integer inputs the tables carry.
* Python's built-in `round` and pandas/numpy `.round()` both round half
  to even; they are embedded as `rhe` below.
* The Prophet library is an external collaborator: its fit on a given
  series is abstracted as a parameter `fit : Except String ℚ`, either a
  point estimate `yhat` for the one-year-ahead date or a raised
  exception with a message.  Everything `prophet_forecast` and
  `forecasting_main` do with that outcome is embedded from the source.
* A Streamlit script run either finishes (possibly rendering a report)
  or dies on an uncaught Python exception; this is embedded as
  `Except String ScriptResult`, where `.error` is an exception escaping
  to the presentation layer.
-/

/-- Round half to even on rationals: the behaviour of Python's built-in
`round` (line 46 and line 88 of `app.py`) and of pandas `.round()`
(lines 167-168). -/
def rhe (q : ℚ) : ℤ :=
  if q - ⌊q⌋ < 1/2 then ⌊q⌋
  else if 1/2 < q - ⌊q⌋ then ⌊q⌋ + 1
  else if ⌊q⌋ % 2 = 0 then ⌊q⌋ else ⌊q⌋ + 1

/-- Rounding a non-negative rational never produces a negative integer. -/
lemma rhe_nonneg (q : ℚ) (h : 0 ≤ q) : 0 ≤ rhe q := by
  have hf : 0 ≤ ⌊q⌋ := Int.le_floor.mpr (by exact_mod_cast h)
  unfold rhe
  split_ifs <;> omega

/-- Round half to even moves a value by at most one half. -/
lemma rhe_abs_sub_le (q : ℚ) : |(rhe q : ℚ) - q| ≤ 1/2 := by
  have h0 : 0 ≤ q - ⌊q⌋ := by
    have := Int.floor_le q
    linarith
  have h1 : q - ⌊q⌋ < 1 := by
    have := Int.lt_floor_add_one q
    linarith
  unfold rhe
  split_ifs with ha hb hc <;>
    · rw [abs_le]
      constructor <;> push_cast <;> linarith

/-- Evaluation rule for `rhe` at a concrete value whose fractional part
is below one half. -/
lemma rhe_eq_of_floor (q : ℚ) (z : ℤ) (hz : (z : ℚ) ≤ q)
    (hz1 : q - (z : ℚ) < 1/2) : rhe q = z := by
  have hfl : ⌊q⌋ = z := by
    rw [Int.floor_eq_iff]
    constructor
    · exact hz
    · linarith
  unfold rhe
  rw [hfl, if_pos hz1]

/-- Rounding an integer-valued rational returns that integer. -/
lemma rhe_intCast (z : ℤ) : rhe ((z : ℚ)) = z := by
  apply rhe_eq_of_floor
  · exact le_refl _
  · norm_num

/-- pandas `Series.tail(k)`: the last `k` elements (all of them when
`k` exceeds the length). -/
def seriesTail (xs : List ℚ) (k : ℕ) : List ℚ :=
  xs.drop (xs.length - k)

/-- pandas `Series.mean()`: the sum divided by the length. -/
def seriesMean (xs : List ℚ) : ℚ :=
  xs.sum / (xs.length : ℚ)

/-- Line 88 of `app.py`:
`sma_total = round(inst_data[Total_Sales].tail(sma_window).mean())`. -/
def sma_forecast (totals : List ℚ) (k : ℕ) : ℤ :=
  rhe (seriesMean (seriesTail totals k))

/-- C3: for every series of at least two non-negative totals and every
window `k` with `1 ≤ k ≤ n`, the moving-average forecast is a
non-negative integer equal to the rounded mean of the last `k` totals. -/
theorem C3_sma_round_mean (totals : List ℚ) (k : ℕ)
    (_h2 : 2 ≤ totals.length) (hk1 : 1 ≤ k) (hkn : k ≤ totals.length)
    (hnn : ∀ x ∈ totals, 0 ≤ x) :
    0 ≤ sma_forecast totals k ∧
      sma_forecast totals k = rhe ((seriesTail totals k).sum / (k : ℚ)) := by
  have hlen : (seriesTail totals k).length = k := by
    simp only [seriesTail, List.length_drop]
    omega
  constructor
  · apply rhe_nonneg
    apply div_nonneg
    · apply List.sum_nonneg
      intro x hx
      exact hnn x (List.mem_of_mem_drop hx)
    · exact_mod_cast Nat.zero_le _
  · unfold sma_forecast seriesMean
    rw [hlen]

/-- Witness for C3 at the concrete series of end-to-end scenario A:
totals 100 and 120 with window 2 give forecast 110. -/
theorem C3_witness :
    (2 ≤ ([(100 : ℚ), 120]).length ∧ 1 ≤ 2 ∧ 2 ≤ ([(100 : ℚ), 120]).length ∧
        ∀ x ∈ [(100 : ℚ), 120], 0 ≤ x) ∧
      (0 ≤ sma_forecast [100, 120] 2 ∧
        sma_forecast [100, 120] 2 = rhe ((seriesTail [100, 120] 2).sum / (2 : ℚ))) :=
  ⟨⟨by decide, by decide, by decide, by decide⟩,
    C3_sma_round_mean [100, 120] 2 (by decide) (by decide) (by decide) (by decide)⟩

/-- Elementwise product of a ratio series with an integer scalar:
pandas `size_ratios * total` in lines 167-168 of `app.py`. -/
def seriesMulScalar (ratios : List (ℕ × ℚ)) (t : ℤ) : List (ℕ × ℚ) :=
  ratios.map (fun p => (p.1, p.2 * (t : ℚ)))

/-- Elementwise `.round().astype(int)` on a size-indexed series. -/
def seriesRound (xs : List (ℕ × ℚ)) : List (ℕ × ℤ) :=
  xs.map (fun p => (p.1, rhe p.2))

/-- Lines 167-168 of `app.py`:
`(size_ratios * total).round().astype(int)` — the size allocator. -/
def allocate_sizes (t : ℤ) (ratios : List (ℕ × ℚ)) : List (ℕ × ℤ) :=
  seriesRound (seriesMulScalar ratios t)

/-- C4: the allocator maps each `(size, ratio)` pair to
`(size, round(ratio * total))`, with no renormalisation step, and on
total 110 with profile 0.2 / 0.3 / 0.5 over sizes 8, 9, 10 it yields
22, 33, 55. -/
theorem C4_allocator_rounds_each_size (t : ℤ) (ratios : List (ℕ × ℚ)) :
    allocate_sizes t ratios = ratios.map (fun p => (p.1, rhe (p.2 * (t : ℚ)))) ∧
      allocate_sizes 110 [(8, 1/5), (9, 3/10), (10, 1/2)] = [(8, 22), (9, 33), (10, 55)] := by
  constructor
  · simp [allocate_sizes, seriesRound, seriesMulScalar, List.map_map, Function.comp]
  · have e1 : rhe ((1 : ℚ)/5 * ((110 : ℤ) : ℚ)) = 22 := by
      apply rhe_eq_of_floor <;> norm_num
    have e2 : rhe ((3 : ℚ)/10 * ((110 : ℤ) : ℚ)) = 33 := by
      apply rhe_eq_of_floor <;> norm_num
    have e3 : rhe ((1 : ℚ)/2 * ((110 : ℤ) : ℚ)) = 55 := by
      apply rhe_eq_of_floor <;> norm_num
    simp only [allocate_sizes, seriesMulScalar, seriesRound, List.map_cons, List.map_nil]
    rw [e1, e2, e3]

/-- Casting an integer list sum into the rationals termwise. -/
lemma intCast_list_sum (l : List ℤ) :
    ((l.sum : ℤ) : ℚ) = (l.map (fun z : ℤ => (z : ℚ))).sum := by
  induction l with
  | nil => simp
  | cons a t ih => simp [ih]

/-- Sum of a termwise difference over a list. -/
lemma list_sum_map_sub (l : List ℚ) (f g : ℚ → ℚ) :
    (l.map (fun q => f q - g q)).sum = (l.map f).sum - (l.map g).sum := by
  induction l with
  | nil => simp
  | cons a t ih =>
    simp only [List.map_cons, List.sum_cons, ih]
    ring

/-- Sum of a list scaled on the right. -/
lemma list_sum_map_mul_right (l : List ℚ) (c : ℚ) :
    (l.map (fun q => q * c)).sum = l.sum * c := by
  induction l with
  | nil => simp
  | cons a t ih =>
    simp only [List.map_cons, List.sum_cons, ih]
    ring

/-- Accumulated rounding error over a list is at most half its length. -/
lemma map_rhe_err_sum_le (l : List ℚ) :
    |(l.map (fun q => (rhe q : ℚ) - q)).sum| ≤ (l.length : ℚ) / 2 := by
  induction l with
  | nil => simp
  | cons a t ih =>
    have h1 := rhe_abs_sub_le a
    have h2 := abs_add ((rhe a : ℚ) - a) ((t.map (fun q => (rhe q : ℚ) - q)).sum)
    simp only [List.map_cons, List.sum_cons, List.length_cons]
    push_cast
    linarith

/-- Key estimate: if a rational list sums exactly to an integer `t`, the
sum of its elementwise roundings differs from `t` by at most the ceiling
of half the list length. -/
lemma sum_rhe_natAbs_le (l : List ℚ) (t : ℤ) (hls : l.sum = (t : ℚ)) :
    ((l.map rhe).sum - t).natAbs ≤ (l.length + 1) / 2 := by
  have h1 : (((l.map rhe).sum : ℤ) : ℚ) = (l.map (fun q => ((rhe q) : ℚ))).sum := by
    rw [intCast_list_sum, List.map_map]
    rfl
  have h2 : (((l.map rhe).sum : ℤ) : ℚ) - (t : ℚ) =
      (l.map (fun q => (rhe q : ℚ) - q)).sum := by
    have hid : (l.map (fun q : ℚ => q)).sum = l.sum := by simp
    rw [list_sum_map_sub, ← h1, hid, hls]
  have h3 : |(((l.map rhe).sum : ℤ) : ℚ) - (t : ℚ)| ≤ (l.length : ℚ) / 2 := by
    rw [h2]
    exact map_rhe_err_sum_le l
  have h3a : |((((l.map rhe).sum - t : ℤ)) : ℚ)| ≤ (l.length : ℚ) / 2 := by
    rw [Int.cast_sub]
    exact h3
  have h4 : ((((l.map rhe).sum - t).natAbs : ℕ) : ℚ) ≤ (l.length : ℚ) / 2 := by
    rw [Int.cast_natAbs, Int.cast_abs]
    exact h3a
  have h5 : 2 * (((l.map rhe).sum - t).natAbs : ℚ) ≤ (l.length : ℚ) := by
    linarith
  have h6 : 2 * ((l.map rhe).sum - t).natAbs ≤ l.length := by
    exact_mod_cast h5
  omega

/-- C6: when the profile's ratios sum to 1, the absolute difference
between the sum of the allocated per-size totals and the aggregate
total is at most the ceiling of half the number of sizes. -/
theorem C6_allocation_drift_bound (t : ℤ) (ratios : List (ℕ × ℚ))
    (hsum : (ratios.map (fun p => p.2)).sum = 1) :
    (((allocate_sizes t ratios).map (fun p => p.2)).sum - t).natAbs ≤
      (ratios.length + 1) / 2 := by
  have hvals : (allocate_sizes t ratios).map (fun p => p.2) =
      ((ratios.map (fun p => p.2)).map (fun r => r * (t : ℚ))).map rhe := by
    simp [allocate_sizes, seriesRound, seriesMulScalar, List.map_map, Function.comp]
  have hlsum : ((ratios.map (fun p => p.2)).map (fun r => r * (t : ℚ))).sum = (t : ℚ) := by
    rw [list_sum_map_mul_right, hsum, one_mul]
  have h := sum_rhe_natAbs_le ((ratios.map (fun p => p.2)).map (fun r => r * (t : ℚ))) t hlsum
  rw [hvals]
  simpa using h

/-- Witness for C6 at the extreme profile of the claim: one size at
ratio 1, the others at 0, with total 7. -/
theorem C6_witness :
    (([((4 : ℕ), (1 : ℚ)), (5, 0), (6, 0)].map (fun p => p.2)).sum = 1) ∧
      (((allocate_sizes 7 [(4, 1), (5, 0), (6, 0)]).map (fun p => p.2)).sum - 7).natAbs ≤
        (([((4 : ℕ), (1 : ℚ)), (5, 0), (6, 0)]).length + 1) / 2 :=
  ⟨by norm_num, C6_allocation_drift_bound 7 [(4, 1), (5, 0), (6, 0)] (by norm_num)⟩

/-- One row of the `actual_sales.csv` table: columns `Institution`,
`Sale_Date` (encoded as an ordinal), `Total_Sales` and the `Size_<n>`
columns in header order. -/
structure Obs where
  instName : String
  saleDate : ℕ
  totalSales : ℚ
  sizes : List ℚ
  deriving DecidableEq

/-- Line 64 of `app.py`:
`inst_data = df_wide[df_wide[Institution] == selected_inst]` — a plain
row filter, preserving table order. -/
def selectInstitution (table : List Obs) (inst : String) : List Obs :=
  table.filter (fun r => r.instName == inst)

/-- Line 93 of `app.py`: the ratio of one size column,
`inst_data.filter(regex=Size_).div(inst_data[Total_Sales], axis=0).mean()`
restricted to column `j`. -/
def size_ratio (instData : List Obs) (j : ℕ) : ℚ :=
  seriesMean (instData.map (fun r => r.sizes.getD j 0 / r.totalSales))

/-- The full size-ratio profile over the size columns `sizeIds`. -/
def size_ratio_profile (sizeIds : List ℕ) (instData : List Obs) : List (ℕ × ℚ) :=
  sizeIds.enum.map (fun p => (p.2, size_ratio instData p.1))

/-- Counterexample to C8: an observation whose size quantity exceeds its
stated total (nothing in the code forbids it) yields a ratio of 2,
outside `[0,1]`. -/
theorem C8_counterexample :
    size_ratio [({ instName := "A", saleDate := 1, totalSales := 10, sizes := [20] } : Obs)] 0 = 2 ∧
      ¬ (size_ratio [({ instName := "A", saleDate := 1, totalSales := 10, sizes := [20] } : Obs)] 0 ≤ 1) := by
  have h : size_ratio [({ instName := "A", saleDate := 1, totalSales := 10, sizes := [20] } : Obs)] 0 = 2 := by
    simp [size_ratio, seriesMean]
    norm_num
  refine ⟨h, ?_⟩
  rw [h]
  norm_num

/-- C8 as amended: for every nonempty series whose observations have
positive totals and per-size quantities between 0 and the total, the
profile assigns each size the average over observations of
`quantity / total`, and that ratio lies in `[0,1]`. -/
theorem C8_ratio_avg_in_unit_interval (instData : List Obs) (j : ℕ)
    (hne : instData ≠ [])
    (hb : ∀ r ∈ instData, 0 < r.totalSales ∧ 0 ≤ r.sizes.getD j 0 ∧
      r.sizes.getD j 0 ≤ r.totalSales) :
    size_ratio instData j =
        (instData.map (fun r => r.sizes.getD j 0 / r.totalSales)).sum / (instData.length : ℚ) ∧
      0 ≤ size_ratio instData j ∧ size_ratio instData j ≤ 1 := by
  have hterms : ∀ x ∈ instData.map (fun r => r.sizes.getD j 0 / r.totalSales),
      0 ≤ x ∧ x ≤ 1 := by
    intro x hx
    obtain ⟨r, hr, rfl⟩ := List.mem_map.mp hx
    obtain ⟨ht, hq0, hqt⟩ := hb r hr
    constructor
    · exact div_nonneg hq0 ht.le
    · exact (div_le_one ht).mpr hqt
  have hpos : 0 < (instData.length : ℚ) := by
    have := List.length_pos.mpr hne
    exact_mod_cast this
  refine ⟨?_, ?_, ?_⟩
  · simp [size_ratio, seriesMean]
  · apply div_nonneg
    · exact List.sum_nonneg (fun x hx => (hterms x hx).1)
    · exact_mod_cast Nat.zero_le _
  · unfold size_ratio seriesMean
    rw [List.length_map, div_le_one hpos]
    have hsum := List.sum_le_card_nsmul
      (instData.map (fun r => r.sizes.getD j 0 / r.totalSales)) 1
      (fun x hx => (hterms x hx).2)
    simpa using hsum

/-- Witness for C8 as amended at a well-formed single observation. -/
theorem C8_witness :
    (([({ instName := "A", saleDate := 1, totalSales := 10, sizes := [2] } : Obs)] : List Obs) ≠ [] ∧
      ∀ r ∈ ([({ instName := "A", saleDate := 1, totalSales := 10, sizes := [2] } : Obs)] : List Obs),
        0 < r.totalSales ∧ 0 ≤ r.sizes.getD 0 0 ∧ r.sizes.getD 0 0 ≤ r.totalSales) ∧
      (size_ratio [({ instName := "A", saleDate := 1, totalSales := 10, sizes := [2] } : Obs)] 0 =
          (([({ instName := "A", saleDate := 1, totalSales := 10, sizes := [2] } : Obs)] : List Obs).map
            (fun r => r.sizes.getD 0 0 / r.totalSales)).sum / 1 ∧
        0 ≤ size_ratio [({ instName := "A", saleDate := 1, totalSales := 10, sizes := [2] } : Obs)] 0 ∧
        size_ratio [({ instName := "A", saleDate := 1, totalSales := 10, sizes := [2] } : Obs)] 0 ≤ 1) :=
  ⟨⟨by simp, by simp; norm_num⟩,
    C8_ratio_avg_in_unit_interval
      [({ instName := "A", saleDate := 1, totalSales := 10, sizes := [2] } : Obs)] 0
      (by simp) (by simp; norm_num)⟩

/-- Lines 35-49 of `app.py` (`prophet_forecast`): the Prophet fit is
wrapped in `try/except`; on success the point estimate is rounded with
Python `round`, on any exception the function shows an error message via
`st.error` and returns `None`.  The result is the returned value paired
with the diagnostic message, if any. -/
def prophet_forecast (fit : Except String ℚ) : Option ℤ × Option String :=
  match fit with
  | .ok yhat => (some (rhe yhat), none)
  | .error e => (none, some ("Prophet forecast failed: " ++ e))

/-- The forecast-details table of lines 171-175 of `app.py`: one row per
size column with the Prophet and SMA per-size forecasts. -/
structure Report where
  sizes : List ℕ
  prophetSizes : List ℤ
  smaSizes : List ℤ
  deriving DecidableEq

/-- Outcome of one run of the forecasting page that did not die on an
exception: either the insufficient-data warning of lines 65-67, or the
page rendered with the forecast-details slot of lines 162-187 (which
holds a report, or nothing but a warning). -/
inductive ScriptResult where
  | insufficientData : ScriptResult
  | rendered : Option Report → ScriptResult
  deriving DecidableEq

/-- Python truthiness of `prophet_total` (either `None` or an `int`):
`None` and `0` are falsy. -/
def truthy : Option ℤ → Bool
  | none => false
  | some v => v != 0

/-- The Python exception raised at line 127 of `app.py` when
`future_date` (assigned only inside `if prophet_total:` at line 116) is
read while absent. -/
def nameErrorMsg : String := "NameError: name future_date is not defined"

/-- Lines 51-187 of `app.py` (`forecasting_main`), reduced to its data
path: filter the table to the chosen institution; return the
insufficient-data outcome when fewer than 2 rows remain; otherwise run
the Prophet wrapper and the moving average, and render the page.  The
total-sales chart (lines 106-138) adds the SMA marker at `future_date`,
a name assigned only under `if prophet_total:`, so when `prophet_total`
is falsy the run raises `NameError`; the details tab (lines 162-187)
builds the report only under a second `if prophet_total:`. -/
def forecasting_main (sizeIds : List ℕ) (table : List Obs) (selectedInst : String)
    (smaWindow : ℕ) (fit : Except String ℚ) : Except String ScriptResult :=
  let instData := selectInstitution table selectedInst
  if instData.length < 2 then .ok .insufficientData
  else
    let prophetTotal := (prophet_forecast fit).1
    let smaTotal := sma_forecast (instData.map (fun r => r.totalSales)) smaWindow
    let ratios := size_ratio_profile sizeIds instData
    if truthy prophetTotal then
      if truthy prophetTotal then
        .ok (.rendered (some
          { sizes := sizeIds
            prophetSizes := (allocate_sizes (prophetTotal.getD 0) ratios).map (fun p => p.2)
            smaSizes := (allocate_sizes smaTotal ratios).map (fun p => p.2) }))
      else .ok (.rendered none)
    else .error nameErrorMsg

/-- The forecast report extracted from a page run: present only when the
run finished and the details tab rendered it. -/
def reportOf : Except String ScriptResult → Option Report
  | .ok (.rendered r) => r
  | _ => none

/-- C5: for an institution with fewer than 2 observations the page stops
at the insufficient-data warning and produces no report at all. -/
theorem C5_insufficient_data (sizeIds : List ℕ) (table : List Obs) (inst : String)
    (w : ℕ) (fit : Except String ℚ)
    (h : (selectInstitution table inst).length < 2) :
    forecasting_main sizeIds table inst w fit = .ok .insufficientData ∧
      reportOf (forecasting_main sizeIds table inst w fit) = none := by
  have hm : forecasting_main sizeIds table inst w fit = .ok .insufficientData := by
    simp [forecasting_main, h]
  exact ⟨hm, by rw [hm]; rfl⟩

/-- Witness for C5: a single-observation institution. -/
theorem C5_witness :
    (selectInstitution [({ instName := "A", saleDate := 1, totalSales := 50, sizes := [10] } : Obs)] "A").length < 2 ∧
      (forecasting_main [8] [({ instName := "A", saleDate := 1, totalSales := 50, sizes := [10] } : Obs)] "A" 2 (.ok 1) = .ok .insufficientData ∧
        reportOf (forecasting_main [8] [({ instName := "A", saleDate := 1, totalSales := 50, sizes := [10] } : Obs)] "A" 2 (.ok 1)) = none) :=
  ⟨by decide,
    C5_insufficient_data [8] [({ instName := "A", saleDate := 1, totalSales := 50, sizes := [10] } : Obs)] "A" 2 (.ok 1) (by decide)⟩

/-- Series used to exhibit the behaviour of C1: three observations of
institution `A` with identical totals, the degenerate-fit trigger of
end-to-end scenario C. -/
def c1tbl : List Obs :=
  [{ instName := "A", saleDate := 1, totalSales := 100, sizes := [20, 30, 50] },
   { instName := "A", saleDate := 2, totalSales := 100, sizes := [20, 30, 50] },
   { instName := "A", saleDate := 3, totalSales := 100, sizes := [20, 30, 50] }]

/-- Counterexample to C1: on a series where the trend fit fails, no
report containing the moving-average result is produced — the report
slot of the run is empty. -/
theorem C1_counterexample :
    2 ≤ (selectInstitution c1tbl "A").length ∧
      reportOf (forecasting_main [8, 9, 10] c1tbl "A" 2 (.error "degenerate fit")) = none := by
  constructor
  · decide
  · decide

/-- C1 as amended: for every series of at least two observations on
which the trend fit fails, the page produces no report at all — the run
dies with the `future_date` `NameError` before the details tab, and the
details tab itself only renders a report when a trend total is
present. -/
theorem C1_no_report_on_fit_failure (sizeIds : List ℕ) (table : List Obs) (inst : String)
    (w : ℕ) (e : String)
    (h : 2 ≤ (selectInstitution table inst).length) :
    forecasting_main sizeIds table inst w (.error e) = .error nameErrorMsg ∧
      reportOf (forecasting_main sizeIds table inst w (.error e)) = none := by
  have hnot : ¬ ((selectInstitution table inst).length < 2) := by omega
  have hm : forecasting_main sizeIds table inst w (.error e) = .error nameErrorMsg := by
    simp [forecasting_main, hnot, prophet_forecast, truthy]
  exact ⟨hm, by rw [hm]; rfl⟩

/-- Witness for C1 as amended: a two-observation series. -/
theorem C1_witness :
    2 ≤ (selectInstitution
        [({ instName := "A", saleDate := 1, totalSales := 100, sizes := [20] } : Obs),
         ({ instName := "A", saleDate := 2, totalSales := 120, sizes := [24] } : Obs)] "A").length ∧
      (forecasting_main [8]
          [({ instName := "A", saleDate := 1, totalSales := 100, sizes := [20] } : Obs),
           ({ instName := "A", saleDate := 2, totalSales := 120, sizes := [24] } : Obs)] "A" 2
          (.error "fit diverged") = .error nameErrorMsg ∧
        reportOf (forecasting_main [8]
          [({ instName := "A", saleDate := 1, totalSales := 100, sizes := [20] } : Obs),
           ({ instName := "A", saleDate := 2, totalSales := 120, sizes := [24] } : Obs)] "A" 2
          (.error "fit diverged")) = none) :=
  ⟨by decide,
    C1_no_report_on_fit_failure [8]
      [({ instName := "A", saleDate := 1, totalSales := 100, sizes := [20] } : Obs),
       ({ instName := "A", saleDate := 2, totalSales := 120, sizes := [24] } : Obs)] "A" 2
      "fit diverged" (by decide)⟩

/-- Series used to exhibit the behaviour of C2. -/
def c2tbl : List Obs :=
  [{ instName := "B", saleDate := 1, totalSales := 80, sizes := [16, 24, 40] },
   { instName := "B", saleDate := 2, totalSales := 80, sizes := [16, 24, 40] },
   { instName := "B", saleDate := 3, totalSales := 80, sizes := [16, 24, 40] }]

/-- C2 is a code bug: the `try/except` inside `prophet_forecast` does
convert the fit failure into `None` plus a diagnostic message, but the
page run then dies with an unhandled `NameError` at the SMA chart
marker, so the failure does escape to the presentation layer. -/
theorem C2_name_error_escapes :
    prophet_forecast (.error "singular fit") =
        (none, some "Prophet forecast failed: singular fit") ∧
      forecasting_main [8, 9, 10] c2tbl "B" 2 (.error "singular fit") = .error nameErrorMsg := by
  have hlen : ¬ ((selectInstitution c2tbl "B").length < 2) := by decide
  constructor
  · rfl
  · simp [forecasting_main, hlen, prophet_forecast, truthy]

/-- Series used to exhibit the behaviour of C9. -/
def c9tbl : List Obs :=
  [{ instName := "A", saleDate := 1, totalSales := 1, sizes := [1] },
   { instName := "A", saleDate := 2, totalSales := 0, sizes := [0] },
   { instName := "A", saleDate := 3, totalSales := 0, sizes := [0] }]

/-- C9: a trend fit that succeeds with a point estimate rounding to 0
is treated exactly like a fit failure — presence is decided by Python
truthiness of the forecast total, so the run is indistinguishable from
the failing one and no report is produced. -/
theorem C9_zero_forecast_treated_as_absent :
    (prophet_forecast (.ok (1/5))).1 = some 0 ∧
      truthy (some 0) = false ∧
      forecasting_main [8] c9tbl "A" 2 (.ok (1/5)) =
        forecasting_main [8] c9tbl "A" 2 (.error "fit failed") ∧
      reportOf (forecasting_main [8] c9tbl "A" 2 (.ok (1/5))) = none := by
  have h0 : rhe ((1 : ℚ)/5) = 0 := by
    apply rhe_eq_of_floor <;> norm_num
  have h0i : rhe ((5 : ℚ)⁻¹) = 0 := by
    rw [← one_div]
    exact h0
  have hlen : ¬ ((selectInstitution c9tbl "A").length < 2) := by decide
  have hL : forecasting_main [8] c9tbl "A" 2 (.ok (1/5)) = .error nameErrorMsg := by
    simp [forecasting_main, hlen, prophet_forecast, h0, h0i, truthy]
  have hR : forecasting_main [8] c9tbl "A" 2 (.error "fit failed") = .error nameErrorMsg := by
    simp [forecasting_main, hlen, prophet_forecast, truthy]
  refine ⟨?_, rfl, ?_, ?_⟩
  · simp [prophet_forecast, h0, h0i]
  · rw [hL, hR]
  · rw [hL]
    rfl

/-- One row of the `daily_sales.csv` tracking table: columns `Date`
(encoded as an ordinal), `Institution`, the `Size_<n>` columns of the
configured range, and `Total`. -/
structure Entry where
  date : ℕ
  instName : String
  sizes : List ℕ
  total : ℕ
  deriving DecidableEq

/-- The deduplication key of lines 297-301 of `app.py`:
`subset=["Date", "Institution"]`. -/
def entryKey (e : Entry) : ℕ × String :=
  (e.date, e.instName)

/-- pandas `drop_duplicates(subset=["Date", "Institution"], keep="last")`
(lines 297-301 of `app.py`): a row survives exactly when no later row
carries the same key, and surviving rows keep their relative order. -/
def dropDuplicatesLast : List Entry → List Entry
  | [] => []
  | e :: rest =>
    if rest.any (fun r => entryKey r == entryKey e) then dropDuplicatesLast rest
    else e :: dropDuplicatesLast rest

/-- Lines 283-289 of `app.py`: the new entry built by the sales form,
whose `Total` field is computed at line 278 as the sum of the size
inputs. -/
def mkEntry (date : ℕ) (inst : String) (sizeValues : List ℕ) : Entry :=
  { date := date, instName := inst, sizes := sizeValues, total := sizeValues.sum }

/-- Lines 292-301 of `app.py`: append the new entry to the working table
and collapse duplicate `(Date, Institution)` rows keeping the last. -/
def saveEntry (salesData : List Entry) (date : ℕ) (inst : String)
    (sizeValues : List ℕ) : List Entry :=
  dropDuplicatesLast (salesData ++ [mkEntry date inst sizeValues])

/-- Deduplication only keeps rows of the original table. -/
lemma ddl_subset {rows : List Entry} {e : Entry}
    (h : e ∈ dropDuplicatesLast rows) : e ∈ rows := by
  induction rows with
  | nil =>
    simp [dropDuplicatesLast] at h
  | cons a t ih =>
    rw [dropDuplicatesLast] at h
    by_cases hc : (t.any (fun r => entryKey r == entryKey a)) = true
    · rw [if_pos hc] at h
      exact List.mem_cons_of_mem _ (ih h)
    · rw [if_neg hc] at h
      rcases List.mem_cons.mp h with h1 | h2
      · exact h1 ▸ List.mem_cons_self _ _
      · exact List.mem_cons_of_mem _ (ih h2)

/-- After deduplication all keys are pairwise distinct. -/
lemma ddl_pairwise (rows : List Entry) :
    (dropDuplicatesLast rows).Pairwise (fun a b => entryKey a ≠ entryKey b) := by
  induction rows with
  | nil => simp [dropDuplicatesLast]
  | cons a t ih =>
    rw [dropDuplicatesLast]
    by_cases hc : (t.any (fun r => entryKey r == entryKey a)) = true
    · rw [if_pos hc]
      exact ih
    · rw [if_neg hc]
      refine List.Pairwise.cons ?_ ih
      intro b hb heq
      apply hc
      refine List.any_eq_true.mpr ⟨b, ddl_subset hb, ?_⟩
      rw [beq_iff_eq]
      exact heq.symm

/-- Unfolding `find?` on a cons whose head satisfies the test. -/
lemma find?_cons_pos (p : Entry → Bool) (a : Entry) (l : List Entry)
    (h : p a = true) : (a :: l).find? p = some a := by
  simp [List.find?, h]

/-- Unfolding `find?` on a cons whose head fails the test. -/
lemma find?_cons_neg (p : Entry → Bool) (a : Entry) (l : List Entry)
    (h : p a = false) : (a :: l).find? p = l.find? p := by
  simp [List.find?, h]

/-- Last write wins: looking a key up in the deduplicated table finds
exactly the last row of the original table with that key. -/
lemma ddl_find_last (rows : List Entry) (k : ℕ × String) :
    (dropDuplicatesLast rows).find? (fun e => entryKey e == k) =
      rows.reverse.find? (fun e => entryKey e == k) := by
  induction rows with
  | nil => simp [dropDuplicatesLast]
  | cons a t ih =>
    rw [dropDuplicatesLast, List.reverse_cons, List.find?_append]
    by_cases hak : (entryKey a == k) = true
    case neg =>
      have hfa : ((fun e => entryKey e == k) a) = false := by
        simpa using hak
      by_cases hc : (t.any (fun r => entryKey r == entryKey a)) = true
      · rw [if_pos hc, ih]
        cases hfind : t.reverse.find? (fun e => entryKey e == k) with
        | some v => rfl
        | none =>
          rw [find?_cons_neg (fun e => entryKey e == k) a [] hfa]
          rfl
      · rw [if_neg hc, find?_cons_neg (fun e => entryKey e == k) a (dropDuplicatesLast t) hfa, ih]
        cases hfind : t.reverse.find? (fun e => entryKey e == k) with
        | some v => rfl
        | none =>
          rw [find?_cons_neg (fun e => entryKey e == k) a [] hfa]
          rfl
    case pos =>
      have hta : ((fun e => entryKey e == k) a) = true := hak
      by_cases hc : (t.any (fun r => entryKey r == entryKey a)) = true
      · rw [if_pos hc, ih]
        cases hfind : t.reverse.find? (fun e => entryKey e == k) with
        | some v => rfl
        | none =>
          exfalso
          obtain ⟨r, hr, hkey⟩ := List.any_eq_true.mp hc
          have hrk : ((fun e => entryKey e == k) r) = true := by
            rw [beq_iff_eq] at hkey hak ⊢
            rw [hkey, hak]
          have hsome : (t.reverse.find? (fun e => entryKey e == k)).isSome :=
            List.find?_isSome.mpr ⟨r, List.mem_reverse.mpr hr, hrk⟩
          rw [hfind] at hsome
          simp at hsome
      · have hnone : t.reverse.find? (fun e => entryKey e == k) = none := by
          rw [List.find?_eq_none]
          intro x hx hxk
          apply hc
          refine List.any_eq_true.mpr ⟨x, List.mem_reverse.mp hx, ?_⟩
          rw [beq_iff_eq] at hxk hak ⊢
          rw [hxk, ← hak]
        rw [if_neg hc, hnone,
          find?_cons_pos (fun e => entryKey e == k) a (dropDuplicatesLast t) hta,
          find?_cons_pos (fun e => entryKey e == k) a [] hta]
        rfl

/-- The table used as a counterexample for C7: two rows of the same
institution with the same sale date. -/
def c7tbl : List Obs :=
  [{ instName := "A", saleDate := 5, totalSales := 100, sizes := [10] },
   { instName := "A", saleDate := 5, totalSales := 200, sizes := [20] }]

/-- Counterexample to C7: the series the forecasting page hands to the
forecasters keeps both rows of a duplicated date, so it is neither
unique per date nor strictly ascending. -/
theorem C7_counterexample :
    (selectInstitution c7tbl "A").map (fun r => r.saleDate) = [5, 5] ∧
      ¬ ((selectInstitution c7tbl "A").map (fun r => r.saleDate)).Pairwise (· < ·) := by
  have hmap : (selectInstitution c7tbl "A").map (fun r => r.saleDate) = [5, 5] := by
    decide
  refine ⟨hmap, ?_⟩
  intro h
  rw [hmap] at h
  have h5 := (List.pairwise_cons.mp h).1 5 (List.mem_singleton.mpr rfl)
  exact absurd h5 (lt_irrefl 5)

/-- C7 as amended: the forecasting path hands the forecasters exactly
the institution's rows in raw-table order (a filter: a sublist of the
table containing every matching row, with no sorting and no collapsing
of duplicate dates); duplicate `(Date, Institution)` keys are collapsed,
last write wins, only by the tracking entry path. -/
theorem C7_filter_order_and_tracking_dedup (table : List Obs) (inst : String)
    (rows : List Entry) (k : ℕ × String) :
    (selectInstitution table inst).Sublist table ∧
      (∀ r ∈ table, r.instName = inst → r ∈ selectInstitution table inst) ∧
      (dropDuplicatesLast rows).Pairwise (fun a b => entryKey a ≠ entryKey b) ∧
      (dropDuplicatesLast rows).find? (fun e => entryKey e == k) =
        rows.reverse.find? (fun e => entryKey e == k) := by
  refine ⟨List.filter_sublist _, ?_, ddl_pairwise rows, ddl_find_last rows k⟩
  intro r hr hinst
  rw [selectInstitution, List.mem_filter]
  exact ⟨hr, by rw [beq_iff_eq]; exact hinst⟩

/-- Witness for C7 as amended at concrete data. -/
theorem C7_witness :
    (selectInstitution [({ instName := "A", saleDate := 1, totalSales := 10, sizes := [1] } : Obs)] "A").Sublist
        [({ instName := "A", saleDate := 1, totalSales := 10, sizes := [1] } : Obs)] ∧
      (∀ r ∈ [({ instName := "A", saleDate := 1, totalSales := 10, sizes := [1] } : Obs)],
        r.instName = "A" →
          r ∈ selectInstitution [({ instName := "A", saleDate := 1, totalSales := 10, sizes := [1] } : Obs)] "A") ∧
      (dropDuplicatesLast [({ date := 1, instName := "A", sizes := [2], total := 2 } : Entry)]).Pairwise
        (fun a b => entryKey a ≠ entryKey b) ∧
      (dropDuplicatesLast [({ date := 1, instName := "A", sizes := [2], total := 2 } : Entry)]).find?
          (fun e => entryKey e == ((1 : ℕ), "A")) =
        ([({ date := 1, instName := "A", sizes := [2], total := 2 } : Entry)]).reverse.find?
          (fun e => entryKey e == ((1 : ℕ), "A")) :=
  C7_filter_order_and_tracking_dedup
    [({ instName := "A", saleDate := 1, totalSales := 10, sizes := [1] } : Obs)] "A"
    [({ date := 1, instName := "A", sizes := [2], total := 2 } : Entry)] ((1 : ℕ), "A")

/-- C10: every row the sales form appends to the tracking table (that
is, any row of the saved table that was not already present) has its
`Total` column equal to the sum of its size columns, because the form
computes the total as that sum before saving. -/
theorem C10_new_row_total_invariant (salesData : List Entry) (d : ℕ) (inst : String)
    (sv : List ℕ) (r : Entry)
    (hr : r ∈ saveEntry salesData d inst sv) (hnew : r ∉ salesData) :
    r.total = r.sizes.sum := by
  have hmem : r ∈ salesData ++ [mkEntry d inst sv] := ddl_subset hr
  rcases List.mem_append.mp hmem with h1 | h2
  · exact absurd h1 hnew
  · have heq : r = mkEntry d inst sv := List.mem_singleton.mp h2
    rw [heq]
    rfl

/-- Witness for C10: saving the form entry with sizes 1 and 2 yields a
row with total 3. -/
theorem C10_witness :
    (mkEntry 1 "A" [1, 2] ∈ saveEntry [] 1 "A" [1, 2] ∧
        mkEntry 1 "A" [1, 2] ∉ ([] : List Entry)) ∧
      (mkEntry 1 "A" [1, 2]).total = (mkEntry 1 "A" [1, 2]).sizes.sum :=
  ⟨⟨by decide, by decide⟩,
    C10_new_row_total_invariant [] 1 "A" [1, 2] (mkEntry 1 "A" [1, 2]) (by decide) (by decide)⟩
